import Mathlib

/-!
Shallow embedding of the Teleport client-tools self-update mechanism
(`tool/common/update`): the POSIX and Windows directory-lock functions,
the Windows `replace` installer, and the `main` entry point, together
with a small model of the file-system and OS primitives they call.

Each Go function is translated into a Lean function over an explicit
environment that decides the outcome of each OS call; the functions also
return the trace of OS calls they issued, so that properties about which
flags were passed and which files were touched can be stated directly.
-/

namespace Update

/-! ## OS constants (linux/amd64 and Windows values used by the source) -/

def O_WRONLY : Nat := 1
def O_CREATE : Nat := 0x40
def O_APPEND : Nat := 0x400

def LOCK_SH : Nat := 1
def LOCK_EX : Nat := 2
def LOCK_NB : Nat := 4
def LOCK_UN : Nat := 8

def GENERIC_READ : Nat := 0x80000000
def GENERIC_WRITE : Nat := 0x40000000
def FILE_SHARE_READ : Nat := 1
def FILE_SHARE_WRITE : Nat := 2
def OPEN_ALWAYS : Nat := 4
def FILE_ATTRIBUTE_NORMAL : Nat := 0x80
def HANDLE_FLAG_INHERIT : Nat := 1

/-! ## OS-call events

One inductive of file-system-visible OS calls, shared by both platforms.
`openFile` is POSIX `os.OpenFile`, `createFileW` the Windows
`CreateFileW`; `flock`, `close` and `remove` are the corresponding
syscalls; `setHandleInformation` is the Windows inheritance marking. -/

inductive FileEvent where
  | openFile (path : String) (flags : Nat) (perm : Nat)
  | createFileW (path : String) (access : Nat) (share : Nat) (disposition : Nat)
  | flock (op : Nat)
  | close
  | setHandleInformation (flag : Nat) (value : Nat)
  | remove (path : String)
  deriving DecidableEq, Repr

/-- Paths present on disk; creation events add the path, `remove` deletes it. -/
abbrev FsPaths := List String

def FsPaths.insertPath (fs : FsPaths) (p : String) : FsPaths :=
  if p ∈ fs then fs else p :: fs

/-- Effect of one OS-call event on the set of existing paths.
`openFile` with `O_CREATE` and `createFileW` with `OPEN_ALWAYS` create
the file when missing; `remove` deletes it; everything else is neutral. -/
def applyEvent (fs : FsPaths) : FileEvent → FsPaths
  | .openFile p flags _ => if flags &&& O_CREATE ≠ 0 then fs.insertPath p else fs
  | .createFileW p _ _ disp => if disp = OPEN_ALWAYS then fs.insertPath p else fs
  | .remove p => fs.filter (· ≠ p)
  | _ => fs

def applyEvents (fs : FsPaths) (es : List FileEvent) : FsPaths :=
  es.foldl applyEvent fs

/-- Lock errors: a wrapped OS error, or the distinguished Windows
`ErrLocked` ("update is locked by another process"). -/
inductive LockErr where
  | osErr
  | alreadyLocked
  deriving DecidableEq, Repr

/-! ## POSIX `lock` (update_unix.go, build tag !windows)

```go
func lock(dir string) (func(), error) {
    lockFile := filepath.Join(dir, ".lock")
    lf, err := os.OpenFile(lockFile, os.O_CREATE|os.O_WRONLY|os.O_APPEND, 0666)
    if err != nil { return nil, trace.Wrap(err) }
    if err := syscall.Flock(int(lf.Fd()), syscall.LOCK_EX); err != nil {
        return nil, trace.Wrap(err)
    }
    return func() {
        syscall.Flock(int(lf.Fd()), syscall.LOCK_UN) // error only logged
        // os.Remove(lockFile) is commented out in the source
        lf.Close()                                   // error only logged
    }, nil
}
```
-/

/-- Which of the POSIX lock's two fallible OS calls fail. -/
structure UnixLockEnv where
  openFails : Bool
  flockFails : Bool
  deriving DecidableEq, Repr

def lockFileName (dir : String) : String := dir ++ "/.lock"

/-- Result of a `lock` call: the trace of OS calls it issued, the release
closure (as the trace of OS calls the closure issues when invoked, `none`
when Go returns a nil func), and the returned error (`none` for nil). -/
structure LockResult where
  trace : List FileEvent
  release : Option (List FileEvent)
  error : Option LockErr
  deriving DecidableEq, Repr

/-- POSIX `lock`, translated line by line from the source. -/
def unixLock (dir : String) (env : UnixLockEnv) : LockResult :=
  let lockFile := lockFileName dir
  let openEv := FileEvent.openFile lockFile (O_CREATE ||| O_WRONLY ||| O_APPEND) 0o666
  if env.openFails then
    { trace := [openEv], release := none, error := some .osErr }
  else
    let flockEv := FileEvent.flock LOCK_EX
    if env.flockFails then
      { trace := [openEv, flockEv], release := none, error := some .osErr }
    else
      { trace := [openEv, flockEv]
        release := some [FileEvent.flock LOCK_UN, FileEvent.close]
        error := none }

/-! ## Windows `lock` (update_unix.go, build tag windows)

```go
func lock(dir string) (func(), error) {
    path := filepath.Join(dir, ".lock")
    lockPath, err := windows.UTF16PtrFromString(path)
    if err != nil { return nil, trace.Wrap(err) }
    var lockFile *os.File
    fd, _, err := proc.Call(
        uintptr(unsafe.Pointer(lockPath)),
        uintptr(windows.GENERIC_READ|windows.GENERIC_WRITE),
        uintptr(windows.FILE_SHARE_READ|windows.FILE_SHARE_WRITE),
        uintptr(0), uintptr(windows.OPEN_ALWAYS),
        uintptr(windows.FILE_ATTRIBUTE_NORMAL), 0)
    switch err.(windows.Errno) {
    case windows.NO_ERROR, windows.ERROR_ALREADY_EXISTS:
        lockFile = os.NewFile(fd, path)
    case windows.ERROR_SHARING_VIOLATION:
        return nil, ErrLocked
    default:
        windows.CloseHandle(windows.Handle(fd))
        return nil, trace.Wrap(err)
    }
    if err := windows.SetHandleInformation(..., windows.HANDLE_FLAG_INHERIT, 1); err != nil {
        return nil, trace.Wrap(err)
    }
    return func() {
        // os.Remove(lockFile) is commented out in the source
        lockFile.Close() // error only logged
    }, nil
}
```
-/

/-- Desired-access and share-mode words the source passes to `CreateFileW`. -/
def winLockAccess : Nat := GENERIC_READ ||| GENERIC_WRITE

def winLockShare : Nat := FILE_SHARE_READ ||| FILE_SHARE_WRITE

/-- Outcome of the `CreateFileW` call as classified by the source's switch. -/
inductive CFResult where
  | noError
  | alreadyExists
  | sharingViolation
  | otherErr
  deriving DecidableEq, Repr

/-- Outcomes of the Windows lock's fallible OS calls. -/
structure WinLockEnv where
  utf16Fails : Bool
  createFile : CFResult
  setHandleFails : Bool
  deriving DecidableEq, Repr

/-- Windows `lock`, translated line by line from the source. -/
def winLock (dir : String) (env : WinLockEnv) : LockResult :=
  let path := lockFileName dir
  if env.utf16Fails then
    { trace := [], release := none, error := some .osErr }
  else
    let cfEv := FileEvent.createFileW path winLockAccess winLockShare OPEN_ALWAYS
    match env.createFile with
    | .sharingViolation =>
        { trace := [cfEv], release := none, error := some .alreadyLocked }
    | .otherErr =>
        { trace := [cfEv, FileEvent.close], release := none, error := some .osErr }
    | _ =>
        let shEv := FileEvent.setHandleInformation HANDLE_FLAG_INHERIT 1
        if env.setHandleFails then
          { trace := [cfEv, shEv], release := none, error := some .osErr }
        else
          { trace := [cfEv, shEv]
            release := some [FileEvent.close]
            error := none }

/-! ## Windows file-sharing semantics

Model of the documented `CreateFileW` sharing rule: a new open succeeds
exactly when, against every handle already open on the file, the new
desired access is permitted by the existing handle's share mode and the
existing handle's desired access is permitted by the new share mode. -/

/-- The share mode `share` permits another handle requesting `access`. -/
def shareAllows (share access : Nat) : Bool :=
  (access &&& GENERIC_READ = 0 || share &&& FILE_SHARE_READ ≠ 0) &&
  (access &&& GENERIC_WRITE = 0 || share &&& FILE_SHARE_WRITE ≠ 0)

/-- A new `CreateFileW` with `(access, share)` succeeds against the list
of `(access, share)` pairs of handles already open on the same file. -/
def openCompatible (access share : Nat) (existing : List (Nat × Nat)) : Bool :=
  existing.all fun h => shareAllows h.2 access && shareAllows share h.1

/-! ## Windows `replace` (update_unix.go, build tag windows)

```go
func replace(path string) error {
    f, err := os.Open(path)
    if err != nil { return trace.Wrap(err) }
    fi, err := f.Stat()
    if err != nil { return trace.Wrap(err) }
    zipReader, err := zip.NewReader(f, fi.Size())
    if err != nil { return trace.Wrap(err) }
    dir, err := toolsDir()
    if err != nil { return trace.Wrap(err) }
    tempDir, err := os.MkdirTemp(dir, "temp-tools-dir")
    if err != nil { return trace.Wrap(err) }
    for _, r := range zipReader.File {
        if r.Name != "tsh.exe" && r.Name != "tctl.exe" { continue }
        rr, err := r.Open()
        if err != nil { return trace.Wrap(err) }
        defer rr.Close()
        dest := filepath.Join(dir, r.Name)
        t, err := os.CreateTemp(tempDir, dest)
        if err != nil { return trace.Wrap(err) }
        if err := os.Chmod(t.Name(), 0755); err != nil { return trace.Wrap(err) }
        if _, err := io.Copy(t, rr); err != nil { return trace.Wrap(err) }
        // the rename / atomic-replace promotion step is commented out
    }
    return nil
}
```

The file-system model tracks files with contents and directories.
`os.CreateTemp(dir, pattern)` is modelled with Go's documented behaviour
of rejecting any pattern that contains a path separator; the temp-file
name is the pattern with a fresh suffix appended. -/

/-- Windows `filepath.Join` restricted to two components. -/
def winJoin (d name : String) : String :=
  if d = "" then name else d ++ "\\" ++ name

/-- Go's `os.IsPathSeparator` on Windows accepts both slashes. -/
def containsSep (s : String) : Bool :=
  s.toList.any fun c => c = '\\' || c = '/'

/-- The string `pre` is an initial segment of the string `s`. -/
def strHasPre (pre s : String) : Bool :=
  pre.data.isPrefixOf s.data

/-- One archive entry, with injected outcomes of the fallible per-entry
OS calls (`r.Open`, `os.CreateTemp`, `os.Chmod`, `io.Copy`). -/
structure ZipEntry where
  name : String
  content : List Nat
  openFails : Bool := false
  createTempFails : Bool := false
  chmodFails : Bool := false
  copyFails : Bool := false
  deriving DecidableEq, Repr

/-- Outcomes of the up-front fallible calls in `replace`: `os.Open`,
`Stat`, `zip.NewReader` (`none` = malformed archive, `some` = entries),
`toolsDir`, `os.MkdirTemp`. -/
structure ReplaceEnv where
  openFails : Bool := false
  statFails : Bool := false
  archive : Option (List ZipEntry)
  toolsDirResult : Option String
  mkdirTempFails : Bool := false
  deriving DecidableEq, Repr

/-- File-system state seen by `replace`: files (association list from
path to content, most recent first) and directories. -/
structure WinFS where
  files : List (String × List Nat)
  dirs : List String
  deriving DecidableEq, Repr

/-- Content of a file, `none` when no file exists at the path. -/
def WinFS.lookup (fs : WinFS) (p : String) : Option (List Nat) :=
  (fs.files.find? fun e => e.1 = p).map (·.2)

def WinFS.setFile (fs : WinFS) (p : String) (c : List Nat) : WinFS :=
  { fs with files := (p, c) :: fs.files }

/-- Error classes `replace` can return (all are `trace.Wrap`ped). -/
inductive RepErr where
  | osErr
  | badZip
  deriving DecidableEq, Repr

/-- Names the code extracts: the test `r.Name != "tsh.exe" && r.Name != "tctl.exe"`. -/
def isExpectedTool (name : String) : Bool :=
  name = "tsh.exe" || name = "tctl.exe"

/-- Go `filepath.Base` (without the Windows volume-name handling, which
never arises for archive entry names): last path component. -/
def baseName (s : String) : String :=
  match (s.toList.splitOnP fun c => c = '\\' || c = '/').getLast? with
  | some [] => s
  | some cs => String.mk cs
  | none => s

/-- The loop body of `replace` over the archive entries, threading the
file-system state. `dir` is the tools directory, `tempDir` the staging
subdirectory created by `MkdirTemp`. -/
def extractLoop (dir tempDir : String) : List ZipEntry → WinFS → WinFS × Option RepErr
  | [], fs => (fs, none)
  | e :: rest, fs =>
    if ¬ isExpectedTool e.name then extractLoop dir tempDir rest fs
    else if e.openFails then (fs, some .osErr)
    else
      let dest := winJoin dir e.name
      -- os.CreateTemp rejects a pattern containing a path separator
      if containsSep dest then (fs, some .osErr)
      else if e.createTempFails then (fs, some .osErr)
      else
        let tmpName := winJoin tempDir (dest ++ "0")
        let fs1 := fs.setFile tmpName []
        if e.chmodFails then (fs1, some .osErr)
        else if e.copyFails then (fs1, some .osErr)
        else extractLoop dir tempDir rest (fs1.setFile tmpName e.content)

/-- The staging subdirectory `MkdirTemp` creates inside the tools
directory (fresh-suffix nondeterminism fixed to `0`). -/
def stagingDir (dir : String) : String := winJoin dir "temp-tools-dir0"

/-- Windows `replace`, translated from the source. Returns the final
file-system state and the returned error (`none` = Go `nil`). -/
def replace (env : ReplaceEnv) (fs : WinFS) : WinFS × Option RepErr :=
  if env.openFails then (fs, some .osErr)
  else if env.statFails then (fs, some .osErr)
  else
    match env.archive with
    | none => (fs, some .badZip)
    | some entries =>
      match env.toolsDirResult with
      | none => (fs, some .osErr)
      | some dir =>
        if env.mkdirTempFails then (fs, some .osErr)
        else
          let tempDir := stagingDir dir
          let fs1 := { fs with dirs := tempDir :: fs.dirs }
          extractLoop dir tempDir entries fs1

/-! ## `main` entry point

```go
func main() {
    toolsVersion, reExec := update.CheckLocal()
    if reExec {
        if err := update.Download(toolsVersion); err != nil {
            panic(trace.Wrap(err))
            return
        }
        code, err := update.Exec()
        if err != nil {
            log.Fatalf("Failed to re-exec client tool: %v", err)
        } else {
            os.Exit(code)
        }
    }
    if len(os.Args) > 1 && os.Args[1] == "version" {
        fmt.Println("Teleport v", Version)
    }
}
```
-/

/-- Modelled from the spec: the `update.Exec` reexecutor (§4.5) is not in
the given sources. Per the spec it blocks until the child exits and
returns the child's exit code with a nil error when the child was
launched (a non-zero child exit is not an error of this component), and
a non-nil error exactly when the child could not be launched at all. -/
inductive ExecOutcome where
  | launched (exitCode : Nat)
  | launchFailed
  deriving DecidableEq, Repr

/-- Modelled from the spec: `update.CheckLocal` (version resolution) and
`update.Download` are not in the given sources; their observable results
— the required version and whether a re-exec is needed, and whether the
download/install succeeded — enter `main` as environment fields.
`installedExists` records whether a previously installed, policy-compliant
version exists locally (spec §7); `main` receives it only so the claims
about fallback behaviour can mention it. -/
structure MainEnv where
  toolsVersion : String
  reExec : Bool
  downloadFails : Bool
  execResult : ExecOutcome
  args : List String
  installedExists : Bool
  deriving DecidableEq, Repr

/-- Calls `main` makes, in order, including printing the version line. -/
inductive MCall where
  | checkLocal
  | download (version : String)
  | exec
  | printVersion
  deriving DecidableEq, Repr

/-- How the `main` process terminates. `panicked` is a Go panic (crash
trace), `fatalExit` is `log.Fatalf` (error message then exit status 1),
`exit code` is `os.Exit(code)`, `normal` is falling off the end of
`main` (exit status 0). -/
inductive MainOutcome where
  | panicked
  | fatalExit
  | exit (code : Nat)
  | normal
  deriving DecidableEq, Repr

/-- The `main` function, translated from the source: the trace of calls
it performs and how the process terminates. -/
def mainRun (env : MainEnv) : List MCall × MainOutcome :=
  if env.reExec then
    if env.downloadFails then
      ([.checkLocal, .download env.toolsVersion], .panicked)
    else
      match env.execResult with
      | .launchFailed => ([.checkLocal, .download env.toolsVersion, .exec], .fatalExit)
      | .launched code => ([.checkLocal, .download env.toolsVersion, .exec], .exit code)
  else
    if env.args.get? 1 = some "version" then
      ([.checkLocal, .printVersion], .normal)
    else
      ([.checkLocal], .normal)

/-! ## Concrete test inputs used by the counterexamples below -/

/-- An artifact archive holding a well-formed `tsh.exe` entry, with every
injectable OS call succeeding, over a tools directory `C:\home\bin`. -/
def c1Env : ReplaceEnv :=
  { archive := some [{ name := "tsh.exe", content := [1, 2, 3] }]
    toolsDirResult := some "C:\\home\\bin" }

/-- A tools directory already holding an installed `tsh.exe`. -/
def c1Fs : WinFS :=
  { files := [("C:\\home\\bin\\tsh.exe", [9, 9])], dirs := ["C:\\home\\bin"] }

/-- An artifact archive holding a `tsh.exe` entry with fresh content, with
every injectable OS call succeeding, over an empty tools directory. -/
def c4Env : ReplaceEnv :=
  { archive := some [{ name := "tsh.exe", content := [7, 7] }]
    toolsDirResult := some "C:\\home\\bin" }

/-- An empty tools directory. -/
def c4Fs : WinFS := { files := [], dirs := ["C:\\home\\bin"] }

/-- An invocation whose update attempt fails at download while a
previously installed, policy-compliant version exists locally. -/
def c3Env : MainEnv :=
  { toolsVersion := "17.1.2", reExec := true, downloadFails := true
    execResult := .launched 0, args := ["tsh"], installedExists := true }

/-- An invocation whose first argument is `version` while the local check
requires a re-exec; download succeeds and the child exits 0. -/
def c9Env : MainEnv :=
  { toolsVersion := "17.1.2", reExec := true, downloadFails := false
    execResult := .launched 0, args := ["tsh", "version"], installedExists := true }

/-! ## Helper lemmas -/

theorem mem_insertPath (fs : FsPaths) (p : String) : p ∈ fs.insertPath p := by
  unfold FsPaths.insertPath
  split
  · assumption
  · exact List.mem_cons_self _ _

theorem isPrefixOf_append_self {α : Type} [BEq α] [LawfulBEq α] (a b : List α) :
    a.isPrefixOf (a ++ b) = true := by
  induction a with
  | nil => simp [List.isPrefixOf]
  | cons x xs ih => simp [List.isPrefixOf, ih]

theorem strHasPre_append (a b : String) : strHasPre a (a ++ b) = true := by
  have h : (a ++ b).data = a.data ++ b.data := rfl
  rw [strHasPre, h]
  exact isPrefixOf_append_self a.data b.data

theorem strHasPre_winJoin (d s : String) (hd : d ≠ "") :
    strHasPre (d ++ "\\") (winJoin d s) = true := by
  rw [winJoin, if_neg hd]
  exact strHasPre_append (d ++ "\\") s

theorem stagingDir_ne_empty (dir : String) : stagingDir dir ≠ "" := by
  rw [stagingDir, winJoin]
  split
  · decide
  · intro h
    have h2 : (dir ++ "\\" ++ "temp-tools-dir0").data = "".data := congrArg String.data h
    simp [String.data] at h2

theorem lookup_setFile (fs : WinFS) (q : String) (c : List Nat) (p : String) :
    (fs.setFile q c).lookup p = if q = p then some c else fs.lookup p := by
  rw [WinFS.setFile, WinFS.lookup, WinFS.lookup]
  split
  · simp_all [List.find?]
  · simp_all [List.find?]

theorem openFlags_hasCreate : (O_CREATE ||| O_WRONLY ||| O_APPEND) &&& O_CREATE ≠ 0 := by
  decide

/-! ## Claims -/

/-- C5: the POSIX `lock(dir)` opens-or-creates `<dir>/.lock` with
`O_CREATE|O_WRONLY|O_APPEND`, takes an exclusive advisory `flock` on the
descriptor in blocking mode (`LOCK_EX` with no `LOCK_NB` bit and no
timeout), never returns an "already locked" error, and the release
function it returns releases the lock (`LOCK_UN`) and closes the
descriptor. -/
theorem c5_unix_lock_blocking_exclusive (dir : String) (env : UnixLockEnv) :
    (unixLock dir env).trace.head? =
      some (.openFile (lockFileName dir) (O_CREATE ||| O_WRONLY ||| O_APPEND) 0o666) ∧
    (∀ op, FileEvent.flock op ∈ (unixLock dir env).trace → op = LOCK_EX) ∧
    LOCK_EX &&& LOCK_NB = 0 ∧
    (unixLock dir env).error ≠ some .alreadyLocked ∧
    ((unixLock dir env).error = none →
      (unixLock dir env).release = some [.flock LOCK_UN, .close]) := by
  rcases env with ⟨o, f⟩
  cases o <;> cases f <;> simp [unixLock] <;> decide

theorem c5_unix_lock_blocking_exclusive_witness :
    (unixLock "/home/u/.tsh/bin" ⟨false, false⟩).release =
      some [.flock LOCK_UN, .close] ∧
    (unixLock "/home/u/.tsh/bin" ⟨false, false⟩).error ≠ some .alreadyLocked :=
  ⟨(c5_unix_lock_blocking_exclusive "/home/u/.tsh/bin" ⟨false, false⟩).2.2.2.2 rfl,
   (c5_unix_lock_blocking_exclusive "/home/u/.tsh/bin" ⟨false, false⟩).2.2.2.1⟩

/-- C10: on both platforms `lock(dir)` returns a non-nil release function
iff it returns a nil error; every error path yields a nil release. -/
theorem c10_release_iff_no_error (dir : String) (ue : UnixLockEnv) (we : WinLockEnv) :
    ((unixLock dir ue).release.isSome ↔ (unixLock dir ue).error = none) ∧
    ((winLock dir we).release.isSome ↔ (winLock dir we).error = none) := by
  constructor
  · rcases ue with ⟨o, f⟩
    cases o <;> cases f <;> simp [unixLock]
  · rcases we with ⟨u, cf, sh⟩
    cases u <;> cases cf <;> cases sh <;> simp [winLock]

theorem c10_release_iff_no_error_witness :
    ((unixLock "/home/u/.tsh/bin" ⟨false, true⟩).release.isSome ↔
      (unixLock "/home/u/.tsh/bin" ⟨false, true⟩).error = none) ∧
    ((winLock "C:\\home\\bin" ⟨false, .sharingViolation, false⟩).release.isSome ↔
      (winLock "C:\\home\\bin" ⟨false, .sharingViolation, false⟩).error = none) :=
  c10_release_iff_no_error "/home/u/.tsh/bin" ⟨false, true⟩
    ⟨false, .sharingViolation, false⟩

/-- C6: on both platforms, acquiring the directory lock and invoking the
returned release function never deletes `<dir>/.lock`: no `remove` call
appears in the acquire or release traces, and the lock file still exists
after both have been applied to any initial file-system state. -/
theorem c6_release_keeps_lock_file (dir : String) (ue : UnixLockEnv) (we : WinLockEnv)
    (fs : FsPaths) :
    (∀ rel, (unixLock dir ue).release = some rel →
      (∀ q, FileEvent.remove q ∉ (unixLock dir ue).trace ++ rel) ∧
      lockFileName dir ∈ applyEvents fs ((unixLock dir ue).trace ++ rel)) ∧
    (∀ rel, (winLock dir we).release = some rel →
      (∀ q, FileEvent.remove q ∉ (winLock dir we).trace ++ rel) ∧
      lockFileName dir ∈ applyEvents fs ((winLock dir we).trace ++ rel)) := by
  constructor
  · rcases ue with ⟨o, f⟩
    cases o <;> cases f <;> simp [unixLock]
    simp only [applyEvents, List.foldl, applyEvent]
    rw [if_pos openFlags_hasCreate]
    exact mem_insertPath fs _
  · rcases we with ⟨u, cf, sh⟩
    cases u <;> cases cf <;> cases sh <;> simp [winLock] <;>
      (simp only [applyEvents, List.foldl, applyEvent]
       simpa using mem_insertPath fs (lockFileName dir))

/-- C2: the claim that the Windows `lock(dir)` denies other writers is
contradicted by the source: the share mode it passes to `CreateFileW` is
`FILE_SHARE_READ|FILE_SHARE_WRITE`, which permits other writers, and a
second identical open against a process already holding the lock is
compatible under the `CreateFileW` sharing rule, so both processes'
`lock` calls succeed (the OS reports no sharing violation to either, and
each returns a release function with no error). -/
theorem c2_share_mode_admits_both_lockers :
    winLockShare &&& FILE_SHARE_WRITE ≠ 0 ∧
    openCompatible winLockAccess winLockShare [(winLockAccess, winLockShare)] = true ∧
    (winLock "C:\\home\\bin" ⟨false, .noError, false⟩).error = none ∧
    (winLock "C:\\home\\bin" ⟨false, .noError, false⟩).release.isSome = true ∧
    (winLock "C:\\home\\bin" ⟨false, .alreadyExists, false⟩).error = none ∧
    (winLock "C:\\home\\bin" ⟨false, .alreadyExists, false⟩).release.isSome = true := by
  refine ⟨by decide, by decide, rfl, rfl, rfl, rfl⟩

theorem c6_release_keeps_lock_file_witness :
    (∀ q, FileEvent.remove q ∉
      (unixLock "/home/u/.tsh/bin" ⟨false, false⟩).trace ++ [.flock LOCK_UN, .close]) ∧
    lockFileName "/home/u/.tsh/bin" ∈
      applyEvents []
        ((unixLock "/home/u/.tsh/bin" ⟨false, false⟩).trace ++ [.flock LOCK_UN, .close]) :=
  ((c6_release_keeps_lock_file "/home/u/.tsh/bin" ⟨false, false⟩
      ⟨false, .noError, false⟩ []).1) [.flock LOCK_UN, .close] rfl

theorem extractLoop_lookup_outside_staging (dir tempDir : String) (hT : tempDir ≠ "")
    (p : String) (hp : strHasPre (tempDir ++ "\\") p = false) :
    ∀ (es : List ZipEntry) (fs : WinFS),
      ((extractLoop dir tempDir es fs).1).lookup p = fs.lookup p := by
  have hne : ∀ s : String, winJoin tempDir s ≠ p := by
    intro s hs
    have h1 := strHasPre_winJoin tempDir s hT
    rw [hs, hp] at h1
    exact Bool.false_ne_true h1
  intro es
  induction es with
  | nil => intro fs; rfl
  | cons e rest ih =>
    intro fs
    simp only [extractLoop]
    split
    · exact ih fs
    · split
      · rfl
      · split
        · rfl
        · split
          · rfl
          · split
            · rw [lookup_setFile, if_neg (hne _)]
            · split
              · rw [lookup_setFile, if_neg (hne _)]
              · rw [ih, lookup_setFile, if_neg (hne _), lookup_setFile, if_neg (hne _)]

/-- C1 counterexample: a `replace` call on a well-formed archive holding a
`tsh.exe` entry returns an error (the `os.CreateTemp` pattern
`filepath.Join(dir, r.Name)` contains a path separator), yet the staging
subdirectory created inside the tools directory is NOT removed before
returning — it is still present in the final state — refuting the claim
that every erroring `replace` removes the staging subdirectory. -/
theorem c1_staging_left_behind :
    (replace c1Env c1Fs).2 = some .osErr ∧
    stagingDir "C:\\home\\bin" ∈ (replace c1Env c1Fs).1.dirs := by
  decide

/-- C1 amended: when `replace` returns an error the staging subdirectory
is left behind rather than removed, but every file outside the staging
subdirectory — in particular every file of a previously installed version
in the tools directory — is left unchanged, so no previously installed
binary is ever modified by a failed `replace`. -/
theorem c1_prior_files_unchanged (env : ReplaceEnv) (fs : WinFS) (p : String)
    (h : ∀ dir, env.toolsDirResult = some dir →
      strHasPre (stagingDir dir ++ "\\") p = false) :
    ((replace env fs).1).lookup p = fs.lookup p := by
  by_cases h1 : env.openFails
  · simp [replace, h1]
  · by_cases h2 : env.statFails
    · simp [replace, h1, h2]
    · cases ha : env.archive with
      | none => simp [replace, h1, h2, ha]
      | some entries =>
        cases hd : env.toolsDirResult with
        | none => simp [replace, h1, h2, ha, hd]
        | some dir =>
          by_cases h3 : env.mkdirTempFails
          · simp [replace, h1, h2, ha, hd, h3]
          · simp only [replace, h1, h2, ha, hd, h3, Bool.false_eq_true, if_false]
            rw [extractLoop_lookup_outside_staging dir (stagingDir dir)
              (stagingDir_ne_empty dir) p (h dir hd) entries]
            rfl

theorem c1_prior_files_unchanged_witness :
    ((replace c1Env c1Fs).1).lookup "C:\\home\\bin\\tsh.exe" =
      c1Fs.lookup "C:\\home\\bin\\tsh.exe" :=
  c1_prior_files_unchanged c1Env c1Fs "C:\\home\\bin\\tsh.exe"
    (by intro dir hdir; cases Option.some.inj hdir; decide)

/-- C4: the Windows promotion step is stubbed out in the source: on an
artifact archive holding a `tsh.exe` entry with every OS call succeeding,
`replace` returns an error (the `os.CreateTemp` pattern is the full
destination path, which contains a path separator), writes no file at
all, and in particular after `replace` the file `<toolsDir>\tsh.exe`
does not contain the extracted content — the new version is never made
visible under its final path. -/
theorem c4_windows_promotion_stubbed :
    (replace c4Env c4Fs).2 = some .osErr ∧
    ((replace c4Env c4Fs).1).lookup (winJoin "C:\\home\\bin" "tsh.exe") = none ∧
    ((replace c4Env c4Fs).1).files = [] := by
  decide

theorem isExpectedTool_baseName (name : String) (h : isExpectedTool name = true) :
    isExpectedTool (baseName name) = true := by
  rw [isExpectedTool] at h
  simp only [Bool.or_eq_true, decide_eq_true_eq] at h
  rcases h with h | h <;> subst h <;> decide

theorem extractLoop_skips_all (dir tempDir : String) :
    ∀ (es : List ZipEntry) (fs : WinFS),
      (∀ e ∈ es, isExpectedTool e.name = false) →
      extractLoop dir tempDir es fs = (fs, none) := by
  intro es
  induction es with
  | nil => intro fs _; rfl
  | cons e rest ih =>
    intro fs hall
    have he : isExpectedTool e.name = false := hall e (List.mem_cons_self _ _)
    have hr : ∀ e ∈ rest, isExpectedTool e.name = false :=
      fun x hx => hall x (List.mem_cons_of_mem _ hx)
    simp only [extractLoop, he, Bool.false_eq_true, not_false_eq_true, if_true]
    exact ih fs hr

theorem extractLoop_filter_base (dir tempDir : String) :
    ∀ (es : List ZipEntry) (fs : WinFS),
      extractLoop dir tempDir
        (es.filter fun e => isExpectedTool (baseName e.name)) fs =
      extractLoop dir tempDir es fs := by
  intro es
  induction es with
  | nil => intro fs; rfl
  | cons e rest ih =>
    intro fs
    by_cases h1 : isExpectedTool e.name
    · have hb : isExpectedTool (baseName e.name) = true := isExpectedTool_baseName _ h1
      rw [List.filter_cons]
      simp only [hb, if_true]
      by_cases h2 : e.openFails
      · simp [extractLoop, h1, h2]
      · by_cases h3 : containsSep (winJoin dir e.name)
        · simp [extractLoop, h1, h2, h3]
        · by_cases h4 : e.createTempFails
          · simp [extractLoop, h1, h2, h3, h4]
          · by_cases h5 : e.chmodFails
            · simp [extractLoop, h1, h2, h3, h4, h5]
            · by_cases h6 : e.copyFails
              · simp [extractLoop, h1, h2, h3, h4, h5, h6]
              · simp [extractLoop, h1, h2, h3, h4, h5, h6, ih]
    · rw [List.filter_cons]
      by_cases hb : isExpectedTool (baseName e.name)
      · simp only [hb, if_true]
        simp [extractLoop, h1, ih]
      · simp only [hb, Bool.false_eq_true, if_false]
        simp [extractLoop, h1, ih]

/-- C7: during extraction only archive entries whose base name is one of
the expected Windows tool binaries (`tsh.exe`, `tctl.exe`) can have
content extracted and written: `replace` computes the same result when
every entry with a non-matching base name is removed from the archive,
and when the archive holds no entry with a matching base name, `replace`
performs no file write at all. -/
theorem c7_only_expected_tools_extracted (env : ReplaceEnv) (fs : WinFS) :
    replace { env with archive := env.archive.map (fun es => es.filter fun e => isExpectedTool (baseName e.name)) } fs =
      replace env fs ∧
    (∀ es, env.archive = some es →
      (∀ e ∈ es, isExpectedTool (baseName e.name) = false) →
      ((replace env fs).1).files = fs.files) := by
  constructor
  · by_cases h1 : env.openFails
    · simp [replace, h1]
    · by_cases h2 : env.statFails
      · simp [replace, h1, h2]
      · cases ha : env.archive with
        | none => simp [replace, h1, h2, ha]
        | some entries =>
          cases hd : env.toolsDirResult with
          | none => simp [replace, h1, h2, ha, hd]
          | some dir =>
            by_cases h3 : env.mkdirTempFails
            · simp [replace, h1, h2, ha, hd, h3]
            · simp only [replace, h1, h2, ha, hd, h3, Option.map_some',
                Bool.false_eq_true, if_false]
              exact extractLoop_filter_base dir (stagingDir dir) entries
                { fs with dirs := stagingDir dir :: fs.dirs }
  · intro es hes hall
    have hfull : ∀ e ∈ es, isExpectedTool e.name = false := by
      intro e he
      by_contra hcon
      have h1 : isExpectedTool e.name = true := by
        cases hx : isExpectedTool e.name
        · exact absurd hx hcon
        · rfl
      have h2 := isExpectedTool_baseName _ h1
      rw [hall e he] at h2
      exact Bool.false_ne_true h2
    by_cases h1 : env.openFails
    · simp [replace, h1]
    · by_cases h2 : env.statFails
      · simp [replace, h1, h2]
      · cases hd : env.toolsDirResult with
        | none => simp [replace, h1, h2, hes, hd]
        | some dir =>
          by_cases h3 : env.mkdirTempFails
          · simp [replace, h1, h2, hes, hd, h3]
          · simp only [replace, h1, h2, hes, hd, h3, Bool.false_eq_true, if_false]
            rw [extractLoop_skips_all dir (stagingDir dir) es _ hfull]

theorem c7_only_expected_tools_extracted_witness :
    ((replace { archive := some [{ name := "teleport\\README.md", content := [1, 2] }],
                toolsDirResult := some "C:\\home\\bin" }
        { files := [("C:\\home\\bin\\tctl.exe", [5])], dirs := [] }).1).files =
      [("C:\\home\\bin\\tctl.exe", [5])] :=
  (c7_only_expected_tools_extracted
      { archive := some [{ name := "teleport\\README.md", content := [1, 2] }]
        toolsDirResult := some "C:\\home\\bin" }
      { files := [("C:\\home\\bin\\tctl.exe", [5])], dirs := [] }).2
    [{ name := "teleport\\README.md", content := [1, 2] }] rfl (by decide)

/-- C3 counterexample: an invocation whose update attempt fails at
download while a previously installed, policy-compliant version exists
locally does NOT fall back to running the installed binary: `main`
panics (a crash trace), terminating with neither a clean exit code nor
the `log.Fatalf` error path — refuting both the fallback and the
"clear process exit rather than crash trace" parts of the claim. -/
theorem c3_panic_despite_installed_version :
    c3Env.installedExists = true ∧
    (mainRun c3Env).2 = .panicked ∧
    (mainRun c3Env).2 ≠ .fatalExit ∧
    (∀ code, (mainRun c3Env).2 ≠ .exit code) := by
  refine ⟨rfl, rfl, by decide, ?_⟩
  intro code h
  simp [mainRun, c3Env] at h

/-- C3 amended: when the update attempt is required and fails at
download, `main` panics with the wrapped error (a crash trace),
regardless of whether a previously installed version exists — it never
falls back to the installed binary; only a re-exec launch failure is
reported through `log.Fatalf` (an error message followed by a clean
process exit). -/
theorem c3_download_failure_panics (env : MainEnv) (h : env.reExec = true) :
    (env.downloadFails = true → (mainRun env).2 = .panicked) ∧
    (env.downloadFails = false → env.execResult = .launchFailed →
      (mainRun env).2 = .fatalExit) := by
  constructor
  · intro hd
    simp [mainRun, h, hd]
  · intro hd he
    simp [mainRun, h, hd, he]

theorem c3_download_failure_panics_witness :
    (mainRun c3Env).2 = .panicked :=
  (c3_download_failure_panics c3Env rfl).1 rfl

/-- C8: when a re-exec occurs and the child is launched successfully,
`main` terminates with exactly the child's exit code via `os.Exit` — a
non-zero child exit included, never treated as an error — and when the
child cannot be launched at all, `main` takes the `log.Fatalf` path,
which is distinct from terminating with a child exit code. -/
theorem c8_child_exit_code_propagated (env : MainEnv) (h : env.reExec = true)
    (hd : env.downloadFails = false) :
    (∀ code, env.execResult = .launched code → (mainRun env).2 = .exit code) ∧
    (env.execResult = .launchFailed →
      (mainRun env).2 = .fatalExit ∧ ∀ code, (mainRun env).2 ≠ .exit code) := by
  constructor
  · intro code he
    simp [mainRun, h, hd, he]
  · intro he
    refine ⟨by simp [mainRun, h, hd, he], ?_⟩
    intro code hc
    simp [mainRun, h, hd, he] at hc

theorem c8_child_exit_code_propagated_witness :
    (mainRun { toolsVersion := "17.1.2", reExec := true, downloadFails := false,
               execResult := .launched 3, args := ["tsh"], installedExists := true }).2 =
      .exit 3 :=
  (c8_child_exit_code_propagated
      { toolsVersion := "17.1.2", reExec := true, downloadFails := false
        execResult := .launched 3, args := ["tsh"], installedExists := true }
      rfl rfl).1 3 rfl

/-- C9 counterexample: an invocation whose first argument is `version`
but for which the local check requires a re-exec does NOT bypass the
update flow: version resolution, download, and re-exec all occur, and
the build version is never printed — refuting the claim that the
`version` argument bypasses the update flow entirely. -/
theorem c9_version_after_update_flow :
    c9Env.args.get? 1 = some "version" ∧
    (mainRun c9Env).1 = [.checkLocal, .download "17.1.2", .exec] ∧
    MCall.printVersion ∉ (mainRun c9Env).1 := by
  decide

/-- C9 amended: the `version` argument prints the build version only
when the local check decides no re-exec is needed; the check runs first
in every invocation, and in the no-re-exec case the process prints the
version with no download and no re-exec. -/
theorem c9_version_prints_only_without_reexec (env : MainEnv) (h : env.reExec = false)
    (ha : env.args.get? 1 = some "version") :
    (mainRun env).1 = [.checkLocal, .printVersion] ∧
    (∀ v, MCall.download v ∉ (mainRun env).1) ∧
    MCall.exec ∉ (mainRun env).1 ∧
    (mainRun env).2 = .normal := by
  rw [List.get?_eq_getElem?] at ha
  simp [mainRun, h, ha]

theorem c9_version_prints_only_without_reexec_witness :
    (mainRun { toolsVersion := "16.1.1", reExec := false, downloadFails := false,
               execResult := .launched 0, args := ["tsh", "version"],
               installedExists := true }).1 = [.checkLocal, .printVersion] :=
  (c9_version_prints_only_without_reexec
      { toolsVersion := "16.1.1", reExec := false, downloadFails := false
        execResult := .launched 0, args := ["tsh", "version"], installedExists := true }
      rfl rfl).1

end Update
